import Mathlib

/-!
Shallow embedding of `excel_diff.py` (Excel workbook diff tool) and
verification of its specification claims.

Cell values are modelled as a tagged variant (`Value`): absent (`vNone`),
numbers (`vNum`, rationals standing for Python int/float), text (`vStr`)
and booleans (`vBool`).  Python's `==` on these values is modelled by
`pyEq` (note `True == 1` and `False == 0` hold in Python).  Sheets are
modelled by their used bounds, a value-at-coordinate function, and the
declared merged ranges; workbooks are association lists from sheet names
to sheets.
-/

namespace ExcelDiff

/-- Cell values: absent, numeric (Python int/float modelled as ℚ),
text, boolean. -/
inductive Value where
  | vNone : Value
  | vNum : ℚ → Value
  | vStr : String → Value
  | vBool : Bool → Value
deriving DecidableEq

open Value

/-- Diff record statuses. -/
inductive Status where
  | added : Status
  | removed : Status
  | changed : Status
  | missing_sheet_new : Status
  | missing_sheet_base : Status
deriving DecidableEq

/-- The comparison configuration record (CLI options of `excel_diff.py`).
`Option (List String)` models Python `Optional[Set[str]]`. -/
structure Config where
  includeSheets : Option (List String) := Option.none
  excludeSheets : Option (List String) := Option.none
  tolerance : ℚ := 0
  trimWhitespace : Bool := false
  caseInsensitive : Bool := false
  highlight : Bool := true
  compareFormulas : Bool := false

/-- `is_number(x)`: `isinstance(x, (int, float)) and not isinstance(x, bool)`. -/
def is_number : Value → Bool
  | vNum _ => true
  | _ => false

/-- Numeric view used by Python `==`: booleans count as 1 and 0
(in Python `True == 1` and `False == 0`). -/
def toNumQ : Value → Option ℚ
  | vNum q => some q
  | vBool b => some (if b then 1 else 0)
  | _ => Option.none

/-- Python `==` on our value variants: numeric cross-type equality
(bool/int/float compare numerically), string equality, `None == None`,
everything else unequal. -/
def pyEq (a b : Value) : Bool :=
  match toNumQ a, toNumQ b with
  | some x, some y => x == y
  | _, _ =>
    match a, b with
    | vStr s, vStr t => s == t
    | vNone, vNone => true
    | _, _ => false

/-- Python `str()` (stringification of a value; numbers rendered
canonically, booleans as `True`/`False`). -/
def pyStr : Value → String
  | vNone => "None"
  | vNum q => toString q
  | vStr s => s
  | vBool b => if b then "True" else "False"

/-- Is the value a text value (`isinstance(x, str)`)? -/
def isStr : Value → Bool
  | vStr _ => true
  | _ => false

/-- The numeric payload; only read under an `is_number` guard. -/
def numVal : Value → ℚ
  | vNum q => q
  | _ => 0

/-- Whitespace characters stripped by Python `str.strip()`
(space, tab, newline, carriage return, vertical tab, form feed). -/
def isWS (c : Char) : Bool :=
  c == ' ' || c == '\t' || c == '\n' || c == '\r' || c.toNat == 11 || c.toNat == 12

/-- Drop leading whitespace from a character list. -/
def dropWS : List Char → List Char
  | [] => []
  | c :: cs => if isWS c then dropWS cs else c :: cs

/-- Python `str.strip()`: remove leading and trailing whitespace. -/
def pyStrip (s : String) : String :=
  String.mk (dropWS (dropWS s.data.reverse).reverse)

/-- Lower-case a character (Python `str.lower()`, ASCII range). -/
def lowerChar (c : Char) : Char :=
  if 'A' ≤ c && c ≤ 'Z' then Char.ofNat (c.toNat + 32) else c

/-- Python `str.lower()`. -/
def pyLower (s : String) : String :=
  String.mk (s.data.map lowerChar)

/-- `normalize_str` from the source: `None` passes through; otherwise
strip (if `trim_whitespace`) then lower-case (if `case_insensitive`). -/
def normalize_str (cfg : Config) : Option String → Option String
  | Option.none => Option.none
  | some s =>
    let out := if cfg.trimWhitespace then pyStrip s else s
    some (if cfg.caseInsensitive then pyLower out else out)

/-- `str(a) if a is not None else None` from `equal_values`. -/
def strOpt : Value → Option String
  | vNone => Option.none
  | v => some (pyStr v)

/-- `equal_values(a, b, ...)` from the source: exact-equality shortcut,
then numeric tolerance (booleans excluded by `is_number`), then string
normalization when either side is text, else unequal. -/
def equal_values (cfg : Config) (a b : Value) : Bool :=
  if pyEq a b then true
  else if is_number a && is_number b then
    decide (|numVal a - numVal b| ≤ cfg.tolerance)
  else if isStr a || isStr b then
    normalize_str cfg (strOpt a) == normalize_str cfg (strOpt b)
  else false

/-- One declared merged cell range (e.g. `A1:C3`), by its bounding rows
and columns. -/
structure MergedRange where
  minRow : Nat
  minCol : Nat
  maxRow : Nat
  maxCol : Nat
deriving DecidableEq

/-- A sheet: used bounds (as returned by `sheet_used_bounds`), a total
value-at-coordinate function (1-based; `vNone` where no cell), and the
declared merged ranges. -/
structure Sheet where
  maxRow : Nat
  maxCol : Nat
  val : Nat → Nat → Value
  merged : List MergedRange

/-- `merged_non_anchors(ws)` as a membership test: `(r, c)` lies inside
some declared merged range and is not that range's top-left anchor. -/
def merged_non_anchors (ws : Sheet) (r c : Nat) : Bool :=
  ws.merged.any fun m =>
    decide (m.minRow ≤ r) && decide (r ≤ m.maxRow) &&
    decide (m.minCol ≤ c) && decide (c ≤ m.maxCol) &&
    !(r == m.minRow && c == m.minCol)

/-- `a is None or a == ''` from `iter_diff_cells` (raw emptiness test). -/
def isEmptyVal (a : Value) : Bool :=
  a == vNone || pyEq a (vStr "")

/-- Per-coordinate classification done by the body of `iter_diff_cells`:
`none` means no difference is reported for the coordinate. -/
def classifyCell (cfg : Config) (a b : Value) : Option Status :=
  if isEmptyVal a && isEmptyVal b then Option.none
  else if isEmptyVal a && !isEmptyVal b then some Status.added
  else if isEmptyVal b && !isEmptyVal a then some Status.removed
  else if !(equal_values cfg a b) then some Status.changed
  else Option.none

/-- `iter_diff_cells(base_ws, new_ws, ...)`: row-major scan of the union
bounding rectangle, skipping merged non-anchors of either sheet. -/
def iter_diff_cells (cfg : Config) (bws nws : Sheet) : List (Nat × Nat × Status) :=
  (List.range' 1 (max bws.maxRow nws.maxRow)).flatMap fun r =>
    (List.range' 1 (max bws.maxCol nws.maxCol)).filterMap fun c =>
      if merged_non_anchors bws r c || merged_non_anchors nws r c then Option.none
      else (classifyCell cfg (bws.val r c) (nws.val r c)).map fun st => (r, c, st)

/-- Fuelled digits loop of `get_column_letter` (base-26 bijective
numeration); the fuel argument only forces structural recursion. -/
def colLettersAux : Nat → Nat → String
  | _, 0 => ""
  | 0, _ + 1 => ""
  | fuel + 1, n + 1 => colLettersAux fuel (n / 26) ++ String.mk [Char.ofNat (65 + n % 26)]

/-- `get_column_letter(col)`: 1 → "A", 26 → "Z", 27 → "AA", ... -/
def get_column_letter (n : Nat) : String :=
  colLettersAux n n

/-- `cell_coord(row, col)`: column letters followed by the row number. -/
def cell_coord (row col : Nat) : String :=
  get_column_letter col ++ toString row

/-- One reported difference (the `DiffRecord` dataclass); `vNone` stands
for Python `None` in `old`/`new`. -/
structure DiffRecord where
  sheet : String
  cell : String
  status : Status
  old : Value
  new : Value
deriving DecidableEq

/-- A workbook: ordered association list from sheet names to sheets. -/
structure Workbook where
  sheets : List (String × Sheet)

/-- `wb.sheetnames`. -/
def sheetnames (wb : Workbook) : List String :=
  wb.sheets.map Prod.fst

/-- `wb[s]` (lookup of a sheet by name; a blank default is never reached
for names drawn from `sheetnames`). -/
def getSheet (wb : Workbook) (s : String) : Sheet :=
  match wb.sheets.find? (fun p => p.1 == s) with
  | some p => p.2
  | Option.none => ⟨1, 1, fun _ _ => vNone, []⟩

/-- Python `sorted` on a list of strings (lexicographic). -/
def sortStrings (l : List String) : List String :=
  List.insertionSort (fun a b => a ≤ b) l

/-- Python truthiness of an `Optional[Set[str]]`: `None` and the empty
set are falsy. -/
def pyTruthySet : Option (List String) → Bool
  | some (_ :: _) => true
  | _ => false

/-- `s in opt_set` (membership in an optional name set). -/
def optMem (o : Option (List String)) (s : String) : Bool :=
  (o.getD []).contains s

/-- `sorted(base_sheets & new_sheets)`: the common sheet names, as a
sorted deduplicated list. -/
def commonSorted (bwb nwb : Workbook) : List String :=
  sortStrings (((sheetnames bwb).filter fun s => (sheetnames nwb).contains s).dedup)

/-- `sorted(base_sheets - new_sheets)` (and symmetrically): the names in
the first workbook only, as a sorted deduplicated list. -/
def onlyInSorted (bwb nwb : Workbook) : List String :=
  sortStrings (((sheetnames bwb).filter fun s => !(sheetnames nwb).contains s).dedup)

/-- The two list-comprehension filters applied to `to_compare`:
intersect with the include list, then subtract the exclude list, each
only when the optional set is truthy. -/
def applyFilters (cfg : Config) (l : List String) : List String :=
  let l1 := if pyTruthySet cfg.includeSheets then l.filter (fun s => optMem cfg.includeSheets s) else l
  if pyTruthySet cfg.excludeSheets then l1.filter (fun s => !optMem cfg.excludeSheets s) else l1

/-- The `to_compare` list of `compare_workbooks`. -/
def toCompare (cfg : Config) (bwb nwb : Workbook) : List String :=
  applyFilters cfg (commonSorted bwb nwb)

/-- The missing-sheet loops of `compare_workbooks`: one record per name
surviving the two `continue` guards. -/
def missingRecords (cfg : Config) (names : List String) (st : Status) : List DiffRecord :=
  names.flatMap fun s =>
    if pyTruthySet cfg.includeSheets && !optMem cfg.includeSheets s then []
    else if pyTruthySet cfg.excludeSheets && optMem cfg.excludeSheets s then []
    else [⟨s, "", st, vNone, vNone⟩]

/-- The per-sheet inner loop of `compare_workbooks`: a record per yield
of `iter_diff_cells`, re-fetching both raw values. -/
def sheetCellRecords (cfg : Config) (s : String) (bws nws : Sheet) : List DiffRecord :=
  (iter_diff_cells cfg bws nws).map fun t =>
    ⟨s, cell_coord t.1 t.2.1, t.2.2, bws.val t.1 t.2.1, nws.val t.1 t.2.1⟩

/-- `compare_workbooks` at the record level (file I/O, highlighting and
the summary sheet do not affect the returned records): the number of
sheets compared together with the diff record sequence in emission
order. -/
def compare_workbooks (cfg : Config) (bwb nwb : Workbook) : Nat × List DiffRecord :=
  ((toCompare cfg bwb nwb).length,
    missingRecords cfg (onlyInSorted bwb nwb) Status.missing_sheet_new
    ++ missingRecords cfg (onlyInSorted nwb bwb) Status.missing_sheet_base
    ++ (toCompare cfg bwb nwb).flatMap
        (fun s => sheetCellRecords cfg s (getSheet bwb s) (getSheet nwb s)))

/-- Candidate name `f"{name}_{i}"`. -/
def candName (name : String) (i : Nat) : String :=
  name ++ "_" ++ toString i

/-- `ensure_unique_sheet_name(wb, name)` on the sheet-name list: return
`name` if free, else the first `name_i` (i = 1, 2, ...) that is free.
The Python `while` loop always terminates within `len(names) + 1`
candidates, so the search is bounded by that range; the fallback arm is
unreachable. -/
def ensure_unique_sheet_name (names : List String) (name : String) : String :=
  if names.contains name then
    match (List.range (names.length + 1)).find? (fun k => !names.contains (candName name (k + 1))) with
    | some k => candName name (k + 1)
    | Option.none => candName name (names.length + 2)
  else name

/-- `add_summary_sheet(wb_out, diffs)` restricted to its effect on the
sheet-name list: pick a unique title, remove a same-titled sheet if any
(dead branch), then insert the new sheet at index 0. -/
def add_summary_sheet (names : List String) : List String :=
  let title := ensure_unique_sheet_name names "Diff_Summary"
  let names1 := if names.contains title then names.erase title else names
  title :: names1

/-- Within-bounds predicate for a sheet's used range. -/
def withinBounds (ws : Sheet) (r c : Nat) : Prop :=
  1 ≤ r ∧ r ≤ ws.maxRow ∧ 1 ≤ c ∧ c ≤ ws.maxCol

/-- A sheet is well-formed when cells outside its used bounds are empty
(the spec: "beyond which all cells are implicitly empty"). -/
def emptyOutsideBounds (ws : Sheet) : Prop :=
  ∀ r c : Nat, ¬ withinBounds ws r c → isEmptyVal (ws.val r c) = true

/-- Text coercion as claim C2 words it, following the spec sentence:
stringify every value including absent ones, then trim (if configured)
and case-fold (if configured). -/
def specTextCoerce (cfg : Config) (v : Value) : String :=
  let s := pyStr v
  let out := if cfg.trimWhitespace then pyStrip s else s
  if cfg.caseInsensitive then pyLower out else out

/-- Decimal reading of a character list (helper for proving that the
decimal rendering of naturals is injective). -/
def decValFold : List Char → Nat → Nat
  | [], acc => acc
  | c :: cs, acc => decValFold cs (acc * 10 + (c.toNat - 48))

/-- Row-major strict order on yielded difference triples: earlier row,
or same row and earlier column. -/
def rowMajorLT (p q : Nat × Nat × Status) : Prop :=
  p.1 < q.1 ∨ (p.1 = q.1 ∧ p.2.1 < q.2.1)

/-- The single guard predicate both filtering styles of
`compare_workbooks` amount to: pass the include list when truthy, fail
the exclude list when truthy. -/
def passesFilters (cfg : Config) (s : String) : Bool :=
  (!pyTruthySet cfg.includeSheets || optMem cfg.includeSheets s)
  && (!pyTruthySet cfg.excludeSheets || !optMem cfg.excludeSheets s)

/-- Concrete one-cell base sheet (value "x" at A1) used to evaluate the
diff engine on a closed input. -/
def wsWitnessBase : Sheet :=
  ⟨1, 1, fun r c => if r = 1 ∧ c = 1 then vStr "x" else vNone, []⟩

/-- Concrete all-empty sheet used to evaluate the diff engine on a
closed input. -/
def wsWitnessNew : Sheet :=
  ⟨1, 1, fun _ _ => vNone, []⟩

example : equal_values {} (vStr "foo") (vStr "foo") = true := by decide
example : equal_values {} (vStr "foo") (vStr "FOO") = false := by decide
example : equal_values { caseInsensitive := true } (vStr "foo") (vStr "FOO") = true := by decide
example : equal_values { trimWhitespace := true } (vStr " a ") (vStr "a") = true := by decide
example : equal_values {} (vBool true) (vNum 1) = true := by decide
example : equal_values {} vNone (vStr "None") = false := by decide
example : equal_values {} (vStr "1") (vNum 1) = true := by decide
example : cell_coord 5 1 = "A5" := by decide
example : cell_coord 3 27 = "AA3" := by decide
example : cell_coord 10 26 = "Z10" := by decide
example : ensure_unique_sheet_name ["A", "B"] "Diff_Summary" = "Diff_Summary" := by decide
example : ensure_unique_sheet_name ["Diff_Summary"] "Diff_Summary" = "Diff_Summary_1" := by decide
example : ensure_unique_sheet_name ["Diff_Summary", "Diff_Summary_1"] "Diff_Summary" = "Diff_Summary_2" := by decide
example : add_summary_sheet ["Diff_Summary", "S"] = ["Diff_Summary_1", "Diff_Summary", "S"] := by decide

lemma decValFold_append (l1 l2 : List Char) (acc : Nat) :
    decValFold (l1 ++ l2) acc = decValFold l2 (decValFold l1 acc) := by
  induction l1 generalizing acc with
  | nil => rfl
  | cons c cs ih => simp [decValFold, ih]

lemma digitChar_toNat (d : Nat) (h : d < 10) : (Nat.digitChar d).toNat - 48 = d := by
  interval_cases d <;> decide

lemma toDigitsCore_append (fuel n : Nat) (ds : List Char) :
    Nat.toDigitsCore 10 fuel n ds = Nat.toDigitsCore 10 fuel n [] ++ ds := by
  induction fuel generalizing n ds with
  | zero => rfl
  | succ fuel ih =>
    simp only [Nat.toDigitsCore]
    by_cases h : n / 10 = 0
    · simp [h]
    · simp only [h, if_false]
      rw [ih (n / 10) (Nat.digitChar (n % 10) :: ds), ih (n / 10) [Nat.digitChar (n % 10)]]
      simp

lemma toDigitsCore_fuel_irrel (n : Nat) : ∀ f1 f2 : Nat, n < f1 → n < f2 →
    Nat.toDigitsCore 10 f1 n [] = Nat.toDigitsCore 10 f2 n [] := by
  induction n using Nat.strong_induction_on with
  | _ n ih =>
    intro f1 f2 h1 h2
    match f1, f2 with
    | f1 + 1, f2 + 1 =>
      simp only [Nat.toDigitsCore]
      by_cases h : n / 10 = 0
      · simp [h]
      · simp only [h, if_false]
        rw [toDigitsCore_append f1, toDigitsCore_append f2]
        have hnpos : 0 < n := by
          rcases Nat.eq_zero_or_pos n with h0 | h0
          · exact absurd (by simp [h0]) h
          · exact h0
        have hdiv : n / 10 < n := Nat.div_lt_self hnpos (by decide)
        rw [ih (n / 10) hdiv f1 f2 (by omega) (by omega)]

lemma decValFold_toDigits (n : Nat) : ∀ acc : Nat,
    ∃ k : Nat, 0 < k ∧ decValFold (Nat.toDigits 10 n) acc = acc * 10 ^ k + n ∧ n < 10 ^ k := by
  induction n using Nat.strong_induction_on with
  | _ n ih =>
    intro acc
    by_cases h : n / 10 = 0
    · refine ⟨1, by decide, ?_, ?_⟩
      · have hn : n < 10 := by omega
        simp only [Nat.toDigits, Nat.toDigitsCore, h, if_true]
        have hmod : n % 10 = n := Nat.mod_eq_of_lt hn
        simp [decValFold, hmod, digitChar_toNat n hn]
      · have hn : n < 10 := by omega
        simpa using hn
    · have hnpos : 0 < n := by
        rcases Nat.eq_zero_or_pos n with h0 | h0
        · exact absurd (by simp [h0]) h
        · exact h0
      have hdiv : n / 10 < n := Nat.div_lt_self hnpos (by decide)
      have hsplit : Nat.toDigits 10 n = Nat.toDigits 10 (n / 10) ++ [Nat.digitChar (n % 10)] := by
        have e1 : Nat.toDigits 10 n = Nat.toDigitsCore 10 n (n / 10) [Nat.digitChar (n % 10)] := by
          simp only [Nat.toDigits, Nat.toDigitsCore, h, if_false]
        rw [e1, toDigitsCore_append n,
          toDigitsCore_fuel_irrel (n / 10) n (n / 10 + 1) (by omega) (by omega)]
        rfl
      obtain ⟨k, hk, hval, hlt⟩ := ih (n / 10) hdiv acc
      refine ⟨k + 1, by omega, ?_, ?_⟩
      · rw [hsplit, decValFold_append, hval]
        simp only [decValFold]
        rw [digitChar_toNat (n % 10) (Nat.mod_lt n (by decide))]
        have hmod := Nat.div_add_mod n 10
        have hpow : 10 ^ (k + 1) = 10 ^ k * 10 := by ring
        rw [hpow]
        ring_nf
        omega
      · have hmod := Nat.div_add_mod n 10
        have : n < 10 * 10 ^ k := by
          have h2 : n % 10 < 10 := Nat.mod_lt n (by decide)
          omega
        calc n < 10 * 10 ^ k := this
          _ = 10 ^ (k + 1) := by ring

lemma natRepr_injective : Function.Injective Nat.repr := by
  intro m n h
  have hdata : (Nat.toDigits 10 m) = (Nat.toDigits 10 n) := by
    have := congrArg String.data h
    simpa [Nat.repr, List.asString] using this
  obtain ⟨k1, _, hv1, _⟩ := decValFold_toDigits m 0
  obtain ⟨k2, _, hv2, _⟩ := decValFold_toDigits n 0
  have : decValFold (Nat.toDigits 10 m) 0 = decValFold (Nat.toDigits 10 n) 0 := by rw [hdata]
  simpa [hv1, hv2] using this

lemma natToString_injective : Function.Injective (fun n : Nat => toString n) := by
  intro m n h
  exact natRepr_injective h

lemma candName_inj (name : String) {i j : Nat} (h : candName name i = candName name j) : i = j := by
  unfold candName at h
  have hd := congrArg String.data h
  simp only [String.data_append] at hd
  have h1 : (toString i).data = (toString j).data := List.append_cancel_left hd
  exact natToString_injective (String.ext h1)

lemma contains_iff_mem (l : List String) (s : String) : l.contains s = true ↔ s ∈ l := by
  simp [List.contains]

/-- The collision search of `ensure_unique_sheet_name` always ends at a
name absent from the workbook. -/
lemma ensure_unique_not_mem (names : List String) (name : String) :
    ensure_unique_sheet_name names name ∉ names := by
  unfold ensure_unique_sheet_name
  by_cases h : names.contains name = true
  · simp only [h, if_true]
    cases hf : (List.range (names.length + 1)).find? (fun k => !names.contains (candName name (k + 1))) with
    | some k =>
      simp only
      have hp := List.find?_some hf
      simp only [Bool.not_eq_true'] at hp
      intro hmem
      rw [(contains_iff_mem names _).mpr hmem] at hp
      cases hp
    | none =>
      exfalso
      have hall := List.find?_eq_none.mp hf
      have hsub : ((List.range (names.length + 1)).map fun k => candName name (k + 1)) ⊆ names := by
        intro x hx
        simp only [List.mem_map, List.mem_range] at hx
        obtain ⟨k, hk, rfl⟩ := hx
        have hck := hall k (by simp [List.mem_range, hk])
        simp only [Bool.not_eq_true', Bool.not_eq_false] at hck
        exact (contains_iff_mem names _).mp hck
      have hnodup : ((List.range (names.length + 1)).map fun k => candName name (k + 1)).Nodup := by
        refine List.Nodup.map ?_ (List.nodup_range _)
        intro a b hab
        have := candName_inj name hab
        omega
      have hlen : ((List.range (names.length + 1)).map fun k => candName name (k + 1)).length
          = names.length + 1 := by simp
      have hle : ((List.range (names.length + 1)).map fun k => candName name (k + 1)).length
          ≤ names.length := by
        rw [← List.toFinset_card_of_nodup hnodup]
        calc ((List.range (names.length + 1)).map fun k => candName name (k + 1)).toFinset.card
            ≤ names.toFinset.card := by
              apply Finset.card_le_card
              intro x hx
              rw [List.mem_toFinset] at hx ⊢
              exact hsub hx
          _ ≤ names.length := List.toFinset_card_le names
      omega
  · simp only [h, if_false]
    intro hmem
    exact h ((contains_iff_mem names name).mpr hmem)

/-- Because the chosen title is never present, the removal branch of
`add_summary_sheet` is dead: the new title is simply consed in front. -/
lemma add_summary_sheet_eq_cons (names : List String) :
    add_summary_sheet names = ensure_unique_sheet_name names "Diff_Summary" :: names := by
  unfold add_summary_sheet
  have h := ensure_unique_not_mem names "Diff_Summary"
  have hc : names.contains (ensure_unique_sheet_name names "Diff_Summary") = false := by
    rcases hb : names.contains (ensure_unique_sheet_name names "Diff_Summary") with _ | _
    · rfl
    · exact absurd ((contains_iff_mem _ _).mp hb) h
  simp [hc, h]

/-- On a collision the chosen title always has the suffixed shape
`name_i` with `i ≥ 1` (whichever arm of the bounded search fires). -/
lemma ensure_unique_collision (names : List String) (name : String) (h : name ∈ names) :
    ∃ i : Nat, 1 ≤ i ∧ ensure_unique_sheet_name names name = candName name i := by
  unfold ensure_unique_sheet_name
  have hc : names.contains name = true := (contains_iff_mem names name).mpr h
  simp only [hc, if_true]
  cases hf : (List.range (names.length + 1)).find? (fun k => !names.contains (candName name (k + 1))) with
  | some k => exact ⟨k + 1, by omega, rfl⟩
  | none => exact ⟨names.length + 2, by omega, rfl⟩

/-- Claim C9: `add_summary_sheet` never removes or overwrites a
pre-existing sheet: `ensure_unique_sheet_name` always returns a name
absent from the workbook, so the removal branch is unreachable; every
pre-existing sheet is retained and the only change is the one new
summary sheet prepended at index 0. -/
theorem C9_add_summary_frame (names : List String) :
    (∀ name : String, ensure_unique_sheet_name names name ∉ names)
    ∧ add_summary_sheet names = ensure_unique_sheet_name names "Diff_Summary" :: names
    ∧ ∀ s ∈ names, s ∈ add_summary_sheet names :=
  ⟨fun name => ensure_unique_not_mem names name,
   add_summary_sheet_eq_cons names,
   fun s hs => by rw [add_summary_sheet_eq_cons]; exact List.mem_cons_of_mem _ hs⟩

/-- Claim C1 counterexample: on an output workbook whose only sheet is
"Diff_Summary", the prior sheet is not removed: the result keeps it and
gains a new first sheet "Diff_Summary_1", rather than replacing it. -/
theorem C1_counterexample :
    add_summary_sheet ["Diff_Summary"] = ["Diff_Summary_1", "Diff_Summary"]
    ∧ "Diff_Summary" ∈ add_summary_sheet ["Diff_Summary"]
    ∧ add_summary_sheet ["Diff_Summary"] ≠ ["Diff_Summary"] := by decide

/-- Claim C1 as amended: when a sheet named "Diff_Summary" already
exists, the prior sheet is retained (not removed); the fresh summary
sheet gets a suffixed name "Diff_Summary_i" (i ≥ 1) absent from the
existing sheets and is inserted as the first sheet. -/
theorem C1_amended (names : List String) (h : "Diff_Summary" ∈ names) :
    ∃ i : Nat, 1 ≤ i
      ∧ add_summary_sheet names = candName "Diff_Summary" i :: names
      ∧ candName "Diff_Summary" i ∉ names := by
  obtain ⟨i, hi, he⟩ := ensure_unique_collision names "Diff_Summary" h
  refine ⟨i, hi, ?_, ?_⟩
  · rw [add_summary_sheet_eq_cons, he]
  · rw [← he]; exact ensure_unique_not_mem names "Diff_Summary"

theorem C1_amended_witness :
    "Diff_Summary" ∈ ["Diff_Summary"]
    ∧ ∃ i : Nat, 1 ≤ i
      ∧ add_summary_sheet ["Diff_Summary"] = candName "Diff_Summary" i :: ["Diff_Summary"]
      ∧ candName "Diff_Summary" i ∉ ["Diff_Summary"] :=
  ⟨by decide, C1_amended ["Diff_Summary"] (by decide)⟩

/-- Stringify-then-normalize agrees with the code's normalization for
non-absent values. -/
lemma normalize_strOpt (cfg : Config) (v : Value) (hv : v ≠ vNone) :
    normalize_str cfg (strOpt v) = some (specTextCoerce cfg v) := by
  cases v with
  | vNone => exact absurd rfl hv
  | vNum q => rfl
  | vStr s => rfl
  | vBool b => rfl

/-- Claim C2 counterexample: at `a = None`, `b = "None"` under the
default configuration the pair meets all the claim's guards and the
claim's stringify-both-sides test says equal, yet `equal_values` is
false: absent values are not stringified by the code. -/
theorem C2_counterexample :
    pyEq vNone (vStr "None") = false
    ∧ ¬(is_number vNone = true ∧ is_number (vStr "None") = true)
    ∧ isStr (vStr "None") = true
    ∧ specTextCoerce {} vNone = specTextCoerce {} (vStr "None")
    ∧ equal_values {} vNone (vStr "None") = false := by decide

/-- Claim C2 as amended: in the text branch (not Python-equal, not both
numeric, at least one text), `equal_values` is true iff both values are
non-absent and their text coercions, normalized per the configuration,
agree; a pair with an absent side is never equal in this branch. -/
theorem C2_amended (cfg : Config) (a b : Value)
    (h1 : pyEq a b = false)
    (h2 : ¬(is_number a = true ∧ is_number b = true))
    (h3 : isStr a = true ∨ isStr b = true) :
    equal_values cfg a b = true ↔
      (a ≠ vNone ∧ b ≠ vNone ∧ specTextCoerce cfg a = specTextCoerce cfg b) := by
  have hnum : (is_number a && is_number b) = false := by
    rcases ha : is_number a <;> rcases hb : is_number b <;> simp_all
  have h3b : (isStr a || isStr b) = true := by
    rcases h3 with h | h <;> simp [h]
  unfold equal_values
  simp only [h1, hnum, h3b, Bool.false_eq_true, if_false, if_true]
  by_cases ha : a = vNone
  · by_cases hb : b = vNone
    · subst ha; subst hb; simp [pyEq, toNumQ] at h1
    · subst ha
      rw [normalize_strOpt cfg b hb]
      simp [strOpt, normalize_str]
  · by_cases hb : b = vNone
    · subst hb
      rw [normalize_strOpt cfg a ha]
      simp [strOpt, normalize_str, ha]
    · rw [normalize_strOpt cfg a ha, normalize_strOpt cfg b hb]
      simp [ha, hb]

theorem C2_amended_witness :
    (pyEq (vStr " A") (vStr "a") = false
      ∧ ¬(is_number (vStr " A") = true ∧ is_number (vStr "a") = true)
      ∧ (isStr (vStr " A") = true ∨ isStr (vStr "a") = true))
    ∧ (equal_values { trimWhitespace := true, caseInsensitive := true } (vStr " A") (vStr "a") = true ↔
        (vStr " A" ≠ vNone ∧ vStr "a" ≠ vNone ∧
          specTextCoerce { trimWhitespace := true, caseInsensitive := true } (vStr " A") =
            specTextCoerce { trimWhitespace := true, caseInsensitive := true } (vStr "a"))) :=
  ⟨⟨by decide, by decide, Or.inl (by decide)⟩,
    C2_amended { trimWhitespace := true, caseInsensitive := true } (vStr " A") (vStr "a")
      (by decide) (by decide) (Or.inl (by decide))⟩

/-- Claim C4: with tolerance `T ≥ 0`, two non-boolean numbers exactly
`T` apart are equal (the bound is inclusive, so tolerance 0 still allows
exact equality) and `T + ε` apart, `ε > 0`, are not. -/
theorem C4_tolerance_boundary (cfg : Config) (x y T ε : ℚ)
    (hTol : cfg.tolerance = T) (hT : 0 ≤ T) (hε : 0 < ε) :
    (|x - y| = T → equal_values cfg (vNum x) (vNum y) = true)
    ∧ (|x - y| = T + ε → equal_values cfg (vNum x) (vNum y) = false) := by
  constructor
  · intro habs
    by_cases hxy : x = y
    · subst hxy
      unfold equal_values
      simp [pyEq, toNumQ]
    · have hpy : pyEq (vNum x) (vNum y) = false := by
        simp [pyEq, toNumQ, hxy]
      unfold equal_values
      simp only [hpy, Bool.false_eq_true, if_false, is_number, Bool.and_self, if_true, numVal,
        decide_eq_true_eq]
      rw [habs, hTol]
  · intro habs
    have hpos : 0 < T + ε := by linarith
    have hxy : x ≠ y := by
      intro hh
      subst hh
      rw [sub_self, abs_zero] at habs
      exact (ne_of_gt hpos) habs.symm
    have hpy : pyEq (vNum x) (vNum y) = false := by
      simp [pyEq, toNumQ, hxy]
    unfold equal_values
    simp only [hpy, Bool.false_eq_true, if_false, is_number, Bool.and_self, if_true, numVal,
      decide_eq_false_iff_not]
    rw [habs, hTol]
    intro hcon
    linarith

theorem C4_witness :
    (({} : Config).tolerance = 0 ∧ (0 : ℚ) ≤ 0 ∧ (0 : ℚ) < 1)
    ∧ equal_values {} (vNum 0) (vNum 0) = true
    ∧ equal_values {} (vNum 0) (vNum 1) = false :=
  ⟨⟨rfl, le_refl 0, zero_lt_one⟩,
    (C4_tolerance_boundary {} 0 0 0 1 rfl (le_refl 0) zero_lt_one).1 (by simp),
    (C4_tolerance_boundary {} 0 1 0 1 rfl (le_refl 0) zero_lt_one).2 (by simp)⟩

/-- Claim C8: a boolean and its numeric counterpart are equal under
every configuration through the initial Python-equality shortcut, even
though booleans are excluded from the numeric-tolerance step by
`is_number`. -/
theorem C8_bool_number_shortcut (cfg : Config) :
    equal_values cfg (vBool true) (vNum 1) = true
    ∧ equal_values cfg (vBool false) (vNum 0) = true
    ∧ is_number (vBool true) = false ∧ is_number (vBool false) = false :=
  ⟨rfl, rfl, rfl, rfl⟩

/-- Claim C5: emptiness is classified on the raw values before any
normalization: whitespace-only base text against a truly empty new cell
is `removed` under every configuration (trim included), and whenever a
side is empty the classification does not depend on the configuration at
all (tolerance and text normalization only affect the `changed`
determination between two non-empty values). -/
theorem C5_raw_emptiness (s : String) (h1 : s ≠ "") (_hws : s.data.all isWS = true) (cfg : Config) :
    classifyCell cfg (vStr s) vNone = some Status.removed
    ∧ ∀ (cfg2 : Config) (a b : Value), (isEmptyVal a = true ∨ isEmptyVal b = true) →
        classifyCell cfg a b = classifyCell cfg2 a b := by
  constructor
  · have hse : (s == "") = false := by simp [h1]
    have hs : isEmptyVal (vStr s) = false := by
      simp [isEmptyVal, pyEq, toNumQ, hse]
    have hn : isEmptyVal vNone = true := rfl
    simp [classifyCell, hs, hn]
  · intro cfg2 a b h
    rcases h with ha | hb
    · by_cases hb : isEmptyVal b = true <;> simp [classifyCell, ha, hb]
    · by_cases ha : isEmptyVal a = true <;> simp [classifyCell, ha, hb]

theorem C5_witness :
    (" " ≠ "" ∧ " ".data.all isWS = true)
    ∧ (classifyCell { trimWhitespace := true } (vStr " ") vNone = some Status.removed
      ∧ ∀ (cfg2 : Config) (a b : Value), (isEmptyVal a = true ∨ isEmptyVal b = true) →
          classifyCell { trimWhitespace := true } a b = classifyCell cfg2 a b) :=
  ⟨⟨by decide, by decide⟩, C5_raw_emptiness " " (by decide) (by decide) _⟩

/-- Claim C7: the equality oracle is symmetric in its two value
arguments on strings, for every configuration. -/
theorem C7_text_symm (cfg : Config) (s t : String) :
    equal_values cfg (vStr s) (vStr t) = equal_values cfg (vStr t) (vStr s) := by
  unfold equal_values
  have h1 : pyEq (vStr s) (vStr t) = pyEq (vStr t) (vStr s) := by
    simp only [pyEq, toNumQ]
    exact Bool.beq_comm
  rw [h1]
  have h2 : (normalize_str cfg (strOpt (vStr s)) == normalize_str cfg (strOpt (vStr t)))
      = (normalize_str cfg (strOpt (vStr t)) == normalize_str cfg (strOpt (vStr s))) :=
    Bool.beq_comm
  rw [h2]
  simp [is_number, isStr]

/-- A reported coordinate always has a non-empty side. -/
lemma classifyCell_some_nonempty (cfg : Config) (a b : Value) (st : Status)
    (h : classifyCell cfg a b = some st) :
    isEmptyVal a = false ∨ isEmptyVal b = false := by
  by_cases ha : isEmptyVal a = true
  · by_cases hb : isEmptyVal b = true
    · unfold classifyCell at h
      rw [ha, hb] at h
      simp at h
    · simp only [Bool.not_eq_true] at hb
      exact Or.inr hb
  · simp only [Bool.not_eq_true] at ha
    exact Or.inl ha

/-- The diff engine only ever yields cell-level statuses. -/
lemma classifyCell_status (cfg : Config) (a b : Value) (st : Status)
    (h : classifyCell cfg a b = some st) :
    st = Status.added ∨ st = Status.removed ∨ st = Status.changed := by
  unfold classifyCell at h
  split at h
  · cases h
  · split at h
    · cases h; exact Or.inl rfl
    · split at h
      · cases h; exact Or.inr (Or.inl rfl)
      · split at h
        · cases h; exact Or.inr (Or.inr rfl)
        · cases h

/-- Claim C3: no merged-region non-anchor coordinate of either sheet
ever appears in the diff output, and (for sheets empty outside their
used bounds) every reported coordinate lies within the union of the two
sheets' used bounds. -/
theorem C3_merged_exclusion_bounds (cfg : Config) (bws nws : Sheet)
    (hb : emptyOutsideBounds bws) (hn : emptyOutsideBounds nws)
    (r c : Nat) (st : Status)
    (hmem : (r, c, st) ∈ iter_diff_cells cfg bws nws) :
    merged_non_anchors bws r c = false
    ∧ merged_non_anchors nws r c = false
    ∧ (withinBounds bws r c ∨ withinBounds nws r c) := by
  unfold iter_diff_cells at hmem
  simp only [List.mem_flatMap, List.mem_filterMap, List.mem_range'_1] at hmem
  obtain ⟨r0, ⟨hr1, hr2⟩, c0, ⟨hc1, hc2⟩, heq⟩ := hmem
  by_cases hg : (merged_non_anchors bws r0 c0 || merged_non_anchors nws r0 c0) = true
  · rw [if_pos hg] at heq
    simp at heq
  · rw [if_neg hg] at heq
    rw [Option.map_eq_some'] at heq
    obtain ⟨st0, hcl, htrip⟩ := heq
    have hr : r0 = r := congrArg Prod.fst htrip
    have hc : c0 = c := congrArg (fun p => p.2.1) htrip
    rw [← hr, ← hc]
    have hgf : merged_non_anchors bws r0 c0 = false ∧ merged_non_anchors nws r0 c0 = false := by
      simp only [Bool.not_eq_true, Bool.or_eq_false_iff] at hg
      exact hg
    refine ⟨hgf.1, hgf.2, ?_⟩
    rcases classifyCell_some_nonempty cfg _ _ st0 hcl with hne | hne
    · left
      by_contra hw
      rw [hb r0 c0 hw] at hne
      cases hne
    · right
      by_contra hw
      rw [hn r0 c0 hw] at hne
      cases hne

theorem C3_witness :
    (emptyOutsideBounds wsWitnessBase ∧ emptyOutsideBounds wsWitnessNew
      ∧ (1, 1, Status.removed) ∈ iter_diff_cells {} wsWitnessBase wsWitnessNew)
    ∧ (merged_non_anchors wsWitnessBase 1 1 = false
      ∧ merged_non_anchors wsWitnessNew 1 1 = false
      ∧ (withinBounds wsWitnessBase 1 1 ∨ withinBounds wsWitnessNew 1 1)) := by
  have hEB : emptyOutsideBounds wsWitnessBase := by
    intro r c h
    have hcond : ¬(r = 1 ∧ c = 1) := by
      rintro ⟨rfl, rfl⟩
      exact h (by simp [withinBounds, wsWitnessBase])
    show isEmptyVal (if r = 1 ∧ c = 1 then vStr "x" else vNone) = true
    rw [if_neg hcond]
    rfl
  have hEN : emptyOutsideBounds wsWitnessNew := fun _ _ _ => rfl
  exact ⟨⟨hEB, hEN, by decide⟩,
    C3_merged_exclusion_bounds {} wsWitnessBase wsWitnessNew hEB hEN 1 1 Status.removed (by decide)⟩

lemma sortStrings_sorted (l : List String) :
    (sortStrings l).Sorted (fun a b : String => a ≤ b) :=
  List.sorted_insertionSort _ l

lemma sortStrings_filter_sorted (p : String → Bool) (l : List String) :
    ((sortStrings l).filter p).Sorted (fun a b : String => a ≤ b) :=
  List.Pairwise.filter p (sortStrings_sorted l)

/-- The sequential include-then-exclude comprehension filters coincide
with one pass of the combined guard predicate. -/
lemma applyFilters_eq_filter (cfg : Config) (l : List String) :
    applyFilters cfg l = l.filter (passesFilters cfg) := by
  unfold applyFilters passesFilters
  by_cases hi : pyTruthySet cfg.includeSheets = true <;>
  by_cases he : pyTruthySet cfg.excludeSheets = true <;>
    simp [hi, he, List.filter_filter, Bool.and_comm]

/-- The guarded missing-sheet loop coincides with filtering by the same
combined guard predicate and mapping to records. -/
lemma missingRecords_eq (cfg : Config) (st : Status) (names : List String) :
    missingRecords cfg names st
      = (names.filter (passesFilters cfg)).map
          (fun s => (⟨s, "", st, vNone, vNone⟩ : DiffRecord)) := by
  induction names with
  | nil => rfl
  | cons s rest ih =>
    have hcons : missingRecords cfg (s :: rest) st
        = (if pyTruthySet cfg.includeSheets && !optMem cfg.includeSheets s then []
           else if pyTruthySet cfg.excludeSheets && optMem cfg.excludeSheets s then []
           else [(⟨s, "", st, vNone, vNone⟩ : DiffRecord)]) ++ missingRecords cfg rest st := rfl
    rw [hcons, ih]
    by_cases h1 : pyTruthySet cfg.includeSheets = true <;>
    by_cases h2 : optMem cfg.includeSheets s = true <;>
    by_cases h3 : pyTruthySet cfg.excludeSheets = true <;>
    by_cases h4 : optMem cfg.excludeSheets s = true <;>
      simp [passesFilters, h1, h2, h3, h4, List.filter_cons]

/-- Shape of a yield of the inner filterMap body of `iter_diff_cells`. -/
lemma iter_inner_shape (cfg : Config) (bws nws : Sheet) (r c : Nat) (x : Nat × Nat × Status)
    (h : (if merged_non_anchors bws r c || merged_non_anchors nws r c then Option.none
          else (classifyCell cfg (bws.val r c) (nws.val r c)).map fun st => (r, c, st)) = some x) :
    x.1 = r ∧ x.2.1 = c := by
  by_cases hg : (merged_non_anchors bws r c || merged_non_anchors nws r c) = true
  · rw [if_pos hg] at h
    cases h
  · rw [if_neg hg, Option.map_eq_some'] at h
    obtain ⟨st, _, hx⟩ := h
    exact ⟨(congrArg Prod.fst hx).symm, (congrArg (fun p => p.2.1) hx).symm⟩

/-- The diff engine yields its triples in strict row-major order. -/
lemma iter_diff_cells_pairwise (cfg : Config) (bws nws : Sheet) :
    (iter_diff_cells cfg bws nws).Pairwise rowMajorLT := by
  unfold iter_diff_cells
  rw [List.pairwise_flatMap]
  constructor
  · intro r hr
    rw [List.pairwise_filterMap]
    refine List.Pairwise.imp ?_ (List.pairwise_lt_range' 1 (max bws.maxCol nws.maxCol))
    intro c c2 hcc x hx y hy
    rw [Option.mem_def] at hx hy
    obtain ⟨hx1, hx2⟩ := iter_inner_shape cfg bws nws r c x hx
    obtain ⟨hy1, hy2⟩ := iter_inner_shape cfg bws nws r c2 y hy
    exact Or.inr ⟨by rw [hx1, hy1], by rw [hx2, hy2]; exact hcc⟩
  · refine List.Pairwise.imp ?_ (List.pairwise_lt_range' 1 (max bws.maxRow nws.maxRow))
    intro r r2 hrr x hx y hy
    rw [List.mem_filterMap] at hx hy
    obtain ⟨c, _, hxe⟩ := hx
    obtain ⟨c2, _, hye⟩ := hy
    obtain ⟨hx1, _⟩ := iter_inner_shape cfg bws nws r c x hxe
    obtain ⟨hy1, _⟩ := iter_inner_shape cfg bws nws r2 c2 y hye
    exact Or.inl (by rw [hx1, hy1]; exact hrr)

/-- Every yield of `iter_diff_cells` carries a cell-level status. -/
lemma mem_iter_status (cfg : Config) (bws nws : Sheet) (t : Nat × Nat × Status)
    (h : t ∈ iter_diff_cells cfg bws nws) :
    t.2.2 = Status.added ∨ t.2.2 = Status.removed ∨ t.2.2 = Status.changed := by
  unfold iter_diff_cells at h
  simp only [List.mem_flatMap, List.mem_filterMap] at h
  obtain ⟨r, _, c, _, heq⟩ := h
  by_cases hg : (merged_non_anchors bws r c || merged_non_anchors nws r c) = true
  · rw [if_pos hg] at heq
    cases heq
  · rw [if_neg hg, Option.map_eq_some'] at heq
    obtain ⟨st, hcl, hx⟩ := heq
    have : t.2.2 = st := (congrArg (fun p => p.2.2) hx).symm
    rw [this]
    exact classifyCell_status cfg _ _ st hcl

/-- Claim C6: `compare_workbooks` emits all sheet-level records before
any cell-level record — missing-in-new first, then missing-in-base, each
lexicographically sorted and filtered by the same include/exclude rules
as common sheets — followed by cell-level records grouped by sheet in
lexicographically sorted order, each sheet's block in strict row-major
order, carrying only cell-level statuses. -/
theorem C6_record_order (cfg : Config) (bwb nwb : Workbook) :
    (compare_workbooks cfg bwb nwb).2
      = ((onlyInSorted bwb nwb).filter (passesFilters cfg)).map
          (fun s => (⟨s, "", Status.missing_sheet_new, vNone, vNone⟩ : DiffRecord))
        ++ ((onlyInSorted nwb bwb).filter (passesFilters cfg)).map
          (fun s => (⟨s, "", Status.missing_sheet_base, vNone, vNone⟩ : DiffRecord))
        ++ ((commonSorted bwb nwb).filter (passesFilters cfg)).flatMap
            (fun s => sheetCellRecords cfg s (getSheet bwb s) (getSheet nwb s))
    ∧ toCompare cfg bwb nwb = (commonSorted bwb nwb).filter (passesFilters cfg)
    ∧ List.Sorted (fun a b : String => a ≤ b) ((onlyInSorted bwb nwb).filter (passesFilters cfg))
    ∧ List.Sorted (fun a b : String => a ≤ b) ((onlyInSorted nwb bwb).filter (passesFilters cfg))
    ∧ List.Sorted (fun a b : String => a ≤ b) (toCompare cfg bwb nwb)
    ∧ (∀ bws nws : Sheet, (iter_diff_cells cfg bws nws).Pairwise rowMajorLT)
    ∧ (∀ d ∈ missingRecords cfg (onlyInSorted bwb nwb) Status.missing_sheet_new,
        d.cell = "" ∧ d.status = Status.missing_sheet_new)
    ∧ (∀ d ∈ missingRecords cfg (onlyInSorted nwb bwb) Status.missing_sheet_base,
        d.cell = "" ∧ d.status = Status.missing_sheet_base)
    ∧ ∀ s : String, ∀ d ∈ sheetCellRecords cfg s (getSheet bwb s) (getSheet nwb s),
        d.sheet = s
        ∧ (d.status = Status.added ∨ d.status = Status.removed ∨ d.status = Status.changed) := by
  refine ⟨?_, ?_, ?_, ?_, ?_, ?_, ?_, ?_, ?_⟩
  · show missingRecords cfg (onlyInSorted bwb nwb) Status.missing_sheet_new
        ++ missingRecords cfg (onlyInSorted nwb bwb) Status.missing_sheet_base
        ++ (toCompare cfg bwb nwb).flatMap
            (fun s => sheetCellRecords cfg s (getSheet bwb s) (getSheet nwb s)) = _
    rw [missingRecords_eq, missingRecords_eq]
    unfold toCompare
    rw [applyFilters_eq_filter]
  · unfold toCompare
    exact applyFilters_eq_filter cfg _
  · exact sortStrings_filter_sorted _ _
  · exact sortStrings_filter_sorted _ _
  · unfold toCompare
    rw [applyFilters_eq_filter]
    exact sortStrings_filter_sorted _ _
  · exact fun bws nws => iter_diff_cells_pairwise cfg bws nws
  · intro d hd
    rw [missingRecords_eq] at hd
    rw [List.mem_map] at hd
    obtain ⟨s, _, rfl⟩ := hd
    exact ⟨rfl, rfl⟩
  · intro d hd
    rw [missingRecords_eq] at hd
    rw [List.mem_map] at hd
    obtain ⟨s, _, rfl⟩ := hd
    exact ⟨rfl, rfl⟩
  · intro s d hd
    unfold sheetCellRecords at hd
    rw [List.mem_map] at hd
    obtain ⟨t, ht, rfl⟩ := hd
    exact ⟨rfl, mem_iter_status cfg _ _ t ht⟩

/-- Claim C10: an empty include (or exclude) set is falsy in Python, so
the corresponding filter is not applied at all: the comparison behaves
exactly as with no filter, and with an empty include set every common
sheet is still compared (the empty allow-list does not restrict the
comparison to no sheets). -/
theorem C10_empty_filter_noop (cfg : Config) (bwb nwb : Workbook) :
    compare_workbooks { cfg with includeSheets := some [] } bwb nwb
      = compare_workbooks { cfg with includeSheets := Option.none } bwb nwb
    ∧ compare_workbooks { cfg with excludeSheets := some [] } bwb nwb
      = compare_workbooks { cfg with excludeSheets := Option.none } bwb nwb
    ∧ toCompare { includeSheets := some [] } bwb nwb = commonSorted bwb nwb
    ∧ toCompare { excludeSheets := some [] } bwb nwb = commonSorted bwb nwb :=
  ⟨rfl, rfl, rfl, rfl⟩

end ExcelDiff
